import Mathlib

/-!
Verification development for the TypeScriptToLua documentation site's
interactive playground page (`src/pages/play/Playground.tsx`).

The page is a thin presentation layer: an editor state controller that runs a
two-step compile-then-execute cycle, a panel controller for narrow layouts, and
presentation helpers (console-row styling, console-data formatting, and a
source-map visualization URL built from base64 payloads).

Strings coming from the JavaScript runtime are modelled at the UTF-16
code-unit level as `List Nat` where byte-level behaviour matters (the `btoa`
encoding path); elsewhere Lean `String` is used directly.
-/

namespace Playground

/-! ### Data model

`PanelKind`, `PanelState` (Playground.tsx lines 17-23), `ConsoleMessage`
(from `execute.ts`, consumed read-only here), `EditorState` (lines 35-41),
and the transpile result shape returned by `client.getTranspileOutput`
(line 52). JavaScript objects (the `ast` field, of TS type `object`) are
modelled opaquely by an identity token. -/

inductive PanelKind where
  | Input
  | Output
deriving DecidableEq, Repr

structure PanelState where
  activePanel : PanelKind
deriving DecidableEq, Repr

/-- A JavaScript value appearing in a console message's `data` array:
either nullish (`null` / `undefined`) or a non-nullish value identified by
the string its `toString()` method produces. -/
inductive JsValue where
  | jsNull
  | jsUndefined
  | value (str : String)
deriving DecidableEq, Repr

/-- `ConsoleMessage` from `execute.ts`: a method tag (such as "log" or
"error") and an ordered list of printable values. -/
structure ConsoleMessage where
  method : String
  data : List JsValue
deriving DecidableEq, Repr

/-- A JavaScript object, modelled opaquely by an identity token
(the playground only stores and forwards the `ast` object, never inspects
it in the state layer). -/
structure JsObject where
  ident : Nat
deriving DecidableEq, Repr

/-- `EditorState` (Playground.tsx lines 35-41). -/
structure EditorState where
  source : String
  lua : String
  sourceMap : String
  ast : JsObject
  results : List ConsoleMessage
deriving DecidableEq, Repr

/-- The shape destructured from `await client.getTranspileOutput(...)`
(Playground.tsx line 52): `{ lua, ast, sourceMap }`. -/
structure TranspileOutput where
  lua : String
  ast : JsObject
  sourceMap : String
deriving DecidableEq, Repr

/-- `useState<EditorState>({ source: "", lua: "", ast: {}, sourceMap: "", results: [] })`
(Playground.tsx line 49). -/
def initialEditorState : EditorState :=
  { source := "", lua := "", sourceMap := "", ast := { ident := 0 }, results := [] }

/-- `useState<PanelKind>(PanelKind.Input)` (Playground.tsx line 31). -/
def initialPanelState : PanelState :=
  { activePanel := PanelKind.Input }

/-! ### Editor state controller

`updateModel` (Playground.tsx lines 50-58) awaits the transpile output, reads
the current source, and performs two `setState` calls, each replacing the
whole state object.  We model one invocation by the ordered list of state
snapshots it commits, as a function of the values the two awaits return. -/

/-- The ordered list of `setState` commits made by one `updateModel`
invocation (Playground.tsx lines 50-58), given the transpile output, the
source text read from the model, and the results returned by `executeLua`. -/
def updateModel (t : TranspileOutput) (sourceText : String)
    (execResults : List ConsoleMessage) : List EditorState :=
  let lua := t.lua
  let ast := t.ast
  let sourceMap := t.sourceMap
  let source := sourceText
  [ { source, lua, ast, sourceMap, results := [] },
    { source, lua, ast, sourceMap, results := execResults } ]

/-! ### Interleaved compile-and-run cycles

A cycle is one `updateModel` invocation, identified by the values its two
awaits produce.  Each cycle contributes two commit events — the compile-phase
`setState` and the execute-phase `setState`.  React's state is a single slot
replaced wholesale by every commit, so a run is a left fold of commits over
an initial state; distinct invocations' commits may interleave since nothing
serializes them (spec section 5: single slot, last writer wins). -/

/-- The inputs of one compile-and-run cycle: what the transpile await, the
`model.getValue()` call, and the execute await produce. -/
structure Cycle where
  transpile : TranspileOutput
  sourceText : String
  execResults : List ConsoleMessage
deriving DecidableEq, Repr

inductive Phase where
  | compile
  | execute
deriving DecidableEq, Repr

/-- The compile-phase commit of a cycle: first `setState` of `updateModel`
(Playground.tsx line 55), console results cleared. -/
def compileCommit (c : Cycle) : EditorState :=
  { source := c.sourceText, lua := c.transpile.lua, sourceMap := c.transpile.sourceMap,
    ast := c.transpile.ast, results := [] }

/-- The execute-phase commit of a cycle: second `setState` of `updateModel`
(Playground.tsx line 57), same compile results plus the execution results. -/
def executeCommit (c : Cycle) : EditorState :=
  { source := c.sourceText, lua := c.transpile.lua, sourceMap := c.transpile.sourceMap,
    ast := c.transpile.ast, results := c.execResults }

/-- A commit event: the index of the cycle in trigger order, the cycle's
data, and which phase committed. -/
abbrev Event := Nat × Cycle × Phase

/-- The state a single commit event writes. -/
def eventCommit (e : Event) : EditorState :=
  match e.2.2 with
  | Phase.compile => compileCommit e.2.1
  | Phase.execute => executeCommit e.2.1

/-- One `setState` call: the whole state slot is replaced (never merged). -/
def applyEvent (_s : EditorState) (e : Event) : EditorState :=
  eventCommit e

/-- The visible editor state after a sequence of commits. -/
def runTrace (init : EditorState) (tr : List Event) : EditorState :=
  tr.foldl applyEvent init

/-- The two events cycle number `i` with data `c` contributes, in program
order: compile first, then execute. -/
def cycleEvents (i : Nat) (c : Cycle) : List Event :=
  [(i, c, Phase.compile), (i, c, Phase.execute)]

/-- `tr` is an interleaving of the cycles `cs` (listed in trigger order):
every cycle's two commits occur in `tr` exactly once each and in program
order, and no other events occur.  This is exactly "no cycle is cancelled":
every invocation commits both phases. -/
def isInterleaving (cs : List Cycle) (tr : List Event) : Prop :=
  (∀ i c, cs[i]? = some c →
      tr.filter (fun e => e.1 == i) = cycleEvents i c) ∧
  ∀ e ∈ tr, e.1 < cs.length

/-! ### Panel controller and frame conditions

The playground's two mutators of the combined mount state are
`setActivePanel` (Playground.tsx lines 31, 269, 275) and the editor
`setState` calls; each touches only its own slot. -/

/-- The combined state held at the playground mount: the panel slot of
`PanelContextProvider` and the editor slot of `EditorContextProvider`. -/
structure PlaygroundState where
  panel : PanelState
  editor : EditorState
deriving DecidableEq, Repr

/-- `setActivePanel(panelID)` (Playground.tsx lines 31, 269, 275): replaces
the panel slot, touching nothing else. -/
def setActivePanel (p : PanelKind) (st : PlaygroundState) : PlaygroundState :=
  { st with panel := { activePanel := p } }

/-- An editor `setState` at the mount level: replaces the editor slot,
touching nothing else. -/
def commitEditorState (s : EditorState) (st : PlaygroundState) : PlaygroundState :=
  { st with editor := s }

/-! ### Console rendering helpers (Playground.tsx lines 160-172) -/

/-- The scss module class `styles.luaOutputTerminalRow`, an opaque
generated class name. -/
def luaOutputTerminalRow : String := "luaOutputTerminalRow"

/-- The scss module class `styles.luaOutputTerminalError`, an opaque
generated class name. -/
def luaOutputTerminalError : String := "luaOutputTerminalError"

/-- `consoleOutputRowClass` (Playground.tsx lines 164-172): starts from the
terminal-row class and appends the error class when `data.method === "error"`. -/
def consoleOutputRowClass (data : ConsoleMessage) : String :=
  let rowClass := luaOutputTerminalRow
  if data.method = "error" then rowClass ++ " " ++ luaOutputTerminalError
  else rowClass

/-- The optional-chaining call `data?.toString()`: `none` when `data` is
nullish, otherwise the `toString()` result. -/
def toStringOpt : JsValue → Option String
  | JsValue.jsNull => none
  | JsValue.jsUndefined => none
  | JsValue.value s => some s

/-- The nullish-coalescing operator `x ?? d`. -/
def nullishCoalesce (x : Option String) (d : String) : String :=
  x.getD d

/-- `formatLuaOutputData` (Playground.tsx lines 160-162):
`data?.toString() ?? ""`. -/
def formatLuaOutputData (data : JsValue) : String :=
  nullishCoalesce (toStringOpt data) ""

/-! ### Debounced change notification

`InputPane.onChange` wraps its handler in `debounce(..., 250)`
(Playground.tsx lines 84-92); only the debounced firings invoke
`updateModel`, so one firing is one compile cycle. -/

/-- The debounce quiet period passed at Playground.tsx line 90. -/
def inputPaneDebounceMs : Nat := 250

/-- Modelled from the spec: the `debounce` helper imported from
`src/utils` is not among the provided sources.  Per the spec (section 4.2
concurrency contract, section 9 "Debounced callback chain", glossary), each
change event resets a countdown of `q` milliseconds and only a countdown
that runs to completion fires the wrapped handler.  Given the change-event
timestamps in arrival order, this returns the timestamps at which the
handler fires: an event's countdown is cancelled exactly when the next
event arrives before it completes. -/
def debounceTriggers (q : Nat) : List Nat → List Nat
  | [] => []
  | [t] => [t + q]
  | t :: t' :: rest =>
      (if t' < t + q then [] else [t + q]) ++ debounceTriggers q (t' :: rest)

/-! ### Source-map visualization URL (Playground.tsx lines 196-202)

`OutputPane.sourceMapUrl` computes
`[lua, sourceMap, source].map(s => btoa(s.replace(/[^\x00-\x7F]/g, "?"))).join(",")`
and prepends `https://sokra.github.io/source-map-visualization#base64,`.
JavaScript strings are sequences of UTF-16 code units; we model them as
`List Nat` of code-unit values.  `btoa` base64-encodes a string whose code
units are all at most 255 and throws otherwise, so it is modelled as an
`Option`. -/

/-- The code-unit sequence of an ASCII Lean string literal. -/
def strCodes (s : String) : List Nat :=
  s.data.map Char.toNat

/-- `s.replace(/[^\x00-\x7F]/g, "?")`: every code unit above `0x7F` is
replaced by `?` (code 63). -/
def replaceNonAscii (s : List Nat) : List Nat :=
  s.map (fun c => if c ≤ 127 then c else 63)

/-- The base64 digit alphabet: sextet value to character code
(`A-Z`, `a-z`, `0-9`, `+`, `/`). -/
def b64Char (n : Nat) : Nat :=
  if n < 26 then 65 + n
  else if n < 52 then 97 + (n - 26)
  else if n < 62 then 48 + (n - 52)
  else if n = 62 then 43
  else 47

/-- The character code of the base64 padding character `=`. -/
def b64Pad : Nat := 61

/-- Base64 encoding of a byte sequence, three bytes to four characters,
with `=` padding for a final group of one or two bytes. -/
def b64Encode : List Nat → List Nat
  | [] => []
  | [a] => [b64Char (a / 4), b64Char (a % 4 * 16), b64Pad, b64Pad]
  | [a, b] => [b64Char (a / 4), b64Char (a % 4 * 16 + b / 16),
               b64Char (b % 16 * 4), b64Pad]
  | a :: b :: c :: rest =>
      b64Char (a / 4) :: b64Char (a % 4 * 16 + b / 16) ::
      b64Char (b % 16 * 4 + c / 64) :: b64Char (c % 64) :: b64Encode rest

/-- The sextet value of a base64 digit character code. -/
def b64CharVal (c : Nat) : Nat :=
  if 65 ≤ c ∧ c ≤ 90 then c - 65
  else if 97 ≤ c ∧ c ≤ 122 then c - 97 + 26
  else if 48 ≤ c ∧ c ≤ 57 then c - 48 + 52
  else if c = 43 then 62
  else 63

/-- Base64 decoding of a character sequence, four characters to three
bytes, honouring `=` padding. -/
def b64Decode : List Nat → List Nat
  | c1 :: c2 :: c3 :: c4 :: rest =>
      if c3 = b64Pad then
        [b64CharVal c1 * 4 + b64CharVal c2 / 16]
      else if c4 = b64Pad then
        [b64CharVal c1 * 4 + b64CharVal c2 / 16,
         b64CharVal c2 % 16 * 16 + b64CharVal c3 / 4]
      else
        (b64CharVal c1 * 4 + b64CharVal c2 / 16) ::
        (b64CharVal c2 % 16 * 16 + b64CharVal c3 / 4) ::
        (b64CharVal c3 % 4 * 64 + b64CharVal c4) ::
        b64Decode rest
  | _ => []

/-- `btoa(s)`: base64 of the code-unit sequence when every unit is a byte
value, an `InvalidCharacterError` (modelled as `none`) otherwise. -/
def btoa (s : List Nat) : Option (List Nat) :=
  if s.all (fun c => c ≤ 255) then some (b64Encode s) else none

/-- The character code of `,`, the separator used by `.join(",")`. -/
def commaCode : Nat := 44

/-- `Array.prototype.join(",")` on a list of code-unit sequences. -/
def joinWithComma : List (List Nat) → List Nat
  | [] => []
  | [x] => x
  | x :: xs => x ++ commaCode :: joinWithComma xs

/-- Splitting a code-unit sequence at every comma, the inverse reading of
the three comma-separated payloads. -/
def splitOnComma : List Nat → List (List Nat)
  | [] => [[]]
  | c :: rest =>
      if c = commaCode then [] :: splitOnComma rest
      else (c :: (splitOnComma rest).headI) :: (splitOnComma rest).tail

/-- The fixed head of the visualization URL, up to and including the
`#base64,` marker (Playground.tsx line 201). -/
def visualizationUrlHead : List Nat :=
  strCodes "https://sokra.github.io/source-map-visualization#base64,"

/-- `OutputPane.sourceMapUrl` (Playground.tsx lines 196-202): each of
`lua`, `sourceMap`, `source` has its non-ASCII code units replaced by `?`,
is `btoa`-encoded, the encodings are joined with commas and appended to the
service URL.  `none` models an uncaught `btoa` exception. -/
def sourceMapUrl (lua sourceMap source : List Nat) : Option (List Nat) :=
  match btoa (replaceNonAscii lua), btoa (replaceNonAscii sourceMap),
        btoa (replaceNonAscii source) with
  | some e1, some e2, some e3 =>
      some (visualizationUrlHead ++ joinWithComma [e1, e2, e3])
  | _, _, _ => none

/-! ## Theorems -/

/-- Claim C1: every `updateModel` invocation replaces the editor state
wholesale in exactly two steps.  After the compile call returns, the whole
state becomes the current source, compiled text, debug map, syntax tree and
an empty console list; after execution completes, the whole state is
replaced again with the same compile results together with the execution's
console messages. -/
theorem updateModel_two_phase_replacement (t : TranspileOutput) (src : String)
    (res : List ConsoleMessage) :
    updateModel t src res = [compileCommit ⟨t, src, res⟩, executeCommit ⟨t, src, res⟩] ∧
    compileCommit ⟨t, src, res⟩ =
      { source := src, lua := t.lua, sourceMap := t.sourceMap, ast := t.ast,
        results := [] } ∧
    executeCommit ⟨t, src, res⟩ =
      { compileCommit ⟨t, src, res⟩ with results := res } :=
  ⟨rfl, rfl, rfl⟩

/-- Claim C2: the state slot is replaced wholesale by every commit, so
after any commit sequence the visible state carries exactly the last
committing cycle's fields; in particular, right after a cycle's compile
commit no field (compiled text, debug map, syntax tree, console messages)
still holds a value produced by an earlier cycle. -/
theorem visible_state_single_cycle (init : EditorState) (tr : List Event) :
    (∀ e : Event, runTrace init (tr ++ [e]) = eventCommit e) ∧
    (∀ i c, runTrace init (tr ++ [(i, c, Phase.compile)]) = compileCommit c) := by
  constructor
  · intro e
    simp [runTrace, List.foldl_append, applyEvent]
  · intro i c
    simp [runTrace, List.foldl_append, applyEvent, eventCommit]

/-- Claim C3: no compile-and-run cycle is ever cancelled: every invocation
commits both its compile and execute replacements, and there is a valid
interleaving of two cycles in which the earlier-triggered cycle's execute
commit lands after the newer cycle has fully committed, leaving the earlier
cycle's results visible. -/
theorem no_cycle_cancellation (c0 c1 : Cycle) (init : EditorState) :
    (∀ c : Cycle, updateModel c.transpile c.sourceText c.execResults =
        [compileCommit c, executeCommit c]) ∧
    ∃ tr : List Event, isInterleaving [c0, c1] tr ∧
      runTrace init tr = executeCommit c0 := by
  refine ⟨fun c => rfl,
    [(0, c0, Phase.compile), (1, c1, Phase.compile),
     (1, c1, Phase.execute), (0, c0, Phase.execute)], ⟨?_, ?_⟩, rfl⟩
  · intro i c h
    match i with
    | 0 =>
        simp only [List.getElem?_cons_zero, Option.some.injEq] at h
        subst h
        simp [cycleEvents, List.filter]
    | 1 =>
        simp only [List.getElem?_cons_succ, List.getElem?_cons_zero,
          Option.some.injEq] at h
        subst h
        simp [cycleEvents, List.filter]
    | n + 2 =>
        simp at h
  · intro e he
    simp only [List.mem_cons, List.not_mem_nil, or_false] at he
    rcases he with h | h | h | h <;> subst h <;> simp

/-- Claim C7: `setActivePanel` sets the panel slot and leaves every field
of the editor state unchanged, and the editor-state commits (the only other
mutator at the mount) leave the panel slot unchanged. -/
theorem setActivePanel_frame (p : PanelKind) (s : EditorState) (st : PlaygroundState) :
    (setActivePanel p st).panel.activePanel = p ∧
    (setActivePanel p st).editor.lua = st.editor.lua ∧
    (setActivePanel p st).editor.results = st.editor.results ∧
    (setActivePanel p st).editor.ast = st.editor.ast ∧
    (setActivePanel p st).editor.sourceMap = st.editor.sourceMap ∧
    (setActivePanel p st).editor.source = st.editor.source ∧
    (commitEditorState s st).panel = st.panel :=
  ⟨rfl, rfl, rfl, rfl, rfl, rfl, rfl⟩

/-- Claim C8: a console row gets the error styling class exactly when the
message's method is "error"; any other method yields only the plain
terminal-row class. -/
theorem consoleOutputRowClass_error_iff (m : ConsoleMessage) :
    (consoleOutputRowClass m = luaOutputTerminalRow ++ " " ++ luaOutputTerminalError ↔
      m.method = "error") ∧
    (m.method ≠ "error" → consoleOutputRowClass m = luaOutputTerminalRow) := by
  by_cases h : m.method = "error" <;>
    simp [consoleOutputRowClass, h, luaOutputTerminalRow, luaOutputTerminalError]

/-- Claim C9: at mount, before any user action, the active panel is the
Input panel, not the Output panel. -/
theorem initial_panel_is_input :
    initialPanelState.activePanel = PanelKind.Input ∧
    initialPanelState.activePanel ≠ PanelKind.Output :=
  ⟨rfl, by decide⟩

/-- Claim C10: the console-data formatter is total: nullish values format
to the empty string and any other value formats to its `toString()`
result. -/
theorem formatLuaOutputData_total :
    formatLuaOutputData JsValue.jsNull = "" ∧
    formatLuaOutputData JsValue.jsUndefined = "" ∧
    ∀ s : String, formatLuaOutputData (JsValue.value s) = s :=
  ⟨rfl, rfl, fun _ => rfl⟩

/-- When every change event arrives before the previous event's countdown
of `q` completes, only the last event's countdown runs out. -/
theorem debounceTriggers_of_chain (q : Nat) :
    ∀ (events : List Nat) (hne : events ≠ []),
      List.Chain' (fun a b => b < a + q) events →
      debounceTriggers q events = [events.getLast hne + q]
  | [_], _, _ => rfl
  | t :: t' :: rest, _, hchain => by
      have h1 : t' < t + q := (List.chain'_cons.mp hchain).1
      have ih := debounceTriggers_of_chain q (t' :: rest) (by simp)
        (List.chain'_cons.mp hchain).2
      simp only [debounceTriggers, if_pos h1, List.nil_append, ih]
      exact congrArg (fun n => [n + q]) (List.getLast_cons (by simp)).symm

/-- Reading a base64 digit back yields the sextet it encodes. -/
theorem b64CharVal_b64Char : ∀ n < 64, b64CharVal (b64Char n) = n := by decide

/-- No base64 digit is the padding character. -/
theorem b64Char_ne_pad (n : Nat) : b64Char n ≠ b64Pad := by
  unfold b64Char b64Pad
  repeat' split
  all_goals omega

/-- No base64 digit is a comma. -/
theorem b64Char_ne_comma (n : Nat) : b64Char n ≠ commaCode := by
  unfold b64Char commaCode
  repeat' split
  all_goals omega

/-- No character of a base64 encoding is a comma (the alphabet and the
padding character both avoid it), so the `join(",")` separators are
unambiguous. -/
theorem b64Encode_ne_comma : ∀ (s : List Nat), ∀ c ∈ b64Encode s, c ≠ commaCode
  | [] => by simp [b64Encode]
  | [a] => by
      intro c hc
      simp only [b64Encode, List.mem_cons, List.not_mem_nil, or_false] at hc
      rcases hc with h | h | h | h <;> subst h
      · exact b64Char_ne_comma _
      · exact b64Char_ne_comma _
      · decide
      · decide
  | [a, b] => by
      intro c hc
      simp only [b64Encode, List.mem_cons, List.not_mem_nil, or_false] at hc
      rcases hc with h | h | h | h <;> subst h
      · exact b64Char_ne_comma _
      · exact b64Char_ne_comma _
      · exact b64Char_ne_comma _
      · decide
  | a :: b :: c :: rest => by
      intro x hx
      simp only [b64Encode, List.mem_cons] at hx
      rcases hx with h | h | h | h | h
      · subst h; exact b64Char_ne_comma _
      · subst h; exact b64Char_ne_comma _
      · subst h; exact b64Char_ne_comma _
      · subst h; exact b64Char_ne_comma _
      · exact b64Encode_ne_comma rest x h

/-- Decoding inverts encoding on byte sequences. -/
theorem b64Decode_b64Encode : ∀ (s : List Nat), (∀ b ∈ s, b ≤ 255) →
    b64Decode (b64Encode s) = s
  | [], _ => rfl
  | [a], h => by
      have ha : a ≤ 255 := h a (by simp)
      simp only [b64Encode, b64Decode, eq_self_iff_true, if_true]
      rw [b64CharVal_b64Char (a / 4) (by omega),
        b64CharVal_b64Char (a % 4 * 16) (by omega)]
      congr 1
      omega
  | [a, b], h => by
      have ha : a ≤ 255 := h a (by simp)
      have hb : b ≤ 255 := h b (by simp)
      simp only [b64Encode, b64Decode, if_neg (b64Char_ne_pad _), eq_self_iff_true,
        if_true]
      rw [b64CharVal_b64Char (a / 4) (by omega),
        b64CharVal_b64Char (a % 4 * 16 + b / 16) (by omega),
        b64CharVal_b64Char (b % 16 * 4) (by omega)]
      simp only [List.cons.injEq, and_true]
      exact ⟨by omega, by omega⟩
  | a :: b :: c :: rest, h => by
      have ha : a ≤ 255 := h a (by simp)
      have hb : b ≤ 255 := h b (by simp)
      have hc : c ≤ 255 := h c (by simp)
      have ih := b64Decode_b64Encode rest (fun x hx => h x (by simp [hx]))
      simp only [b64Encode, b64Decode, if_neg (b64Char_ne_pad _)]
      rw [b64CharVal_b64Char (a / 4) (by omega),
        b64CharVal_b64Char (a % 4 * 16 + b / 16) (by omega),
        b64CharVal_b64Char (b % 16 * 4 + c / 64) (by omega),
        b64CharVal_b64Char (c % 64) (by omega), ih]
      simp only [List.cons.injEq, and_true]
      exact ⟨by omega, by omega, by omega⟩

/-- Replacement is the identity on ASCII code-unit sequences. -/
theorem replaceNonAscii_of_ascii : ∀ (s : List Nat), (∀ c ∈ s, c ≤ 127) →
    replaceNonAscii s = s
  | [], _ => rfl
  | c :: rest, h => by
      have hc : c ≤ 127 := h c (by simp)
      have ih := replaceNonAscii_of_ascii rest (fun x hx => h x (by simp [hx]))
      simp only [replaceNonAscii, List.map_cons, if_pos hc]
      simp only [replaceNonAscii] at ih
      rw [ih]

/-- Every code unit after replacement is ASCII, hence a byte. -/
theorem replaceNonAscii_ascii (s : List Nat) : ∀ c ∈ replaceNonAscii s, c ≤ 127 := by
  intro c hc
  simp only [replaceNonAscii, List.mem_map] at hc
  obtain ⟨x, _, hx⟩ := hc
  split at hx <;> omega

/-- `btoa` succeeds on byte sequences. -/
theorem btoa_of_bytes (s : List Nat) (h : ∀ c ∈ s, c ≤ 255) :
    btoa s = some (b64Encode s) := by
  unfold btoa
  rw [if_pos]
  rw [List.all_eq_true]
  intro c hc
  simpa using h c hc

/-- `btoa` always succeeds after the non-ASCII replacement. -/
theorem btoa_replaceNonAscii (s : List Nat) :
    btoa (replaceNonAscii s) = some (b64Encode (replaceNonAscii s)) :=
  btoa_of_bytes _ (fun c hc => Nat.le_trans (replaceNonAscii_ascii s c hc) (by omega))

/-- A comma-free sequence splits into itself alone. -/
theorem splitOnComma_no_comma : ∀ (s : List Nat), (∀ c ∈ s, c ≠ commaCode) →
    splitOnComma s = [s]
  | [], _ => rfl
  | c :: rest, h => by
      have hc : c ≠ commaCode := h c (by simp)
      have ih := splitOnComma_no_comma rest (fun x hx => h x (by simp [hx]))
      simp only [splitOnComma, if_neg hc, ih, List.headI, List.tail_cons]

/-- Splitting after a comma-free head peels the head off. -/
theorem splitOnComma_append (a rest : List Nat) (h : ∀ c ∈ a, c ≠ commaCode) :
    splitOnComma (a ++ commaCode :: rest) = a :: splitOnComma rest := by
  induction a with
  | nil => simp [splitOnComma]
  | cons x t ih =>
      have hx : x ≠ commaCode := h x (by simp)
      have iht := ih (fun c hc => h c (by simp [hc]))
      simp only [List.cons_append, splitOnComma, if_neg hx, List.append_eq, iht,
        List.headI, List.tail_cons]

/-- Claim C4: compile cycles fire only through the debounced change
notification with the fixed 250 ms quiet period of Playground.tsx line 90:
a burst of keystrokes whose gaps are all shorter than the quiet period
produces exactly one trigger, and it fires only once the quiet period has
elapsed after the burst's last keystroke. -/
theorem debounce_burst_single_trigger (events : List Nat) (hne : events ≠ [])
    (hburst : List.Chain' (fun a b => a ≤ b ∧ b < a + inputPaneDebounceMs) events) :
    debounceTriggers inputPaneDebounceMs events =
      [events.getLast hne + inputPaneDebounceMs] :=
  debounceTriggers_of_chain inputPaneDebounceMs events hne
    (List.Chain'.imp (fun _ _ h => h.2) hburst)

/-- Claim C5: for ASCII inputs, the three comma-separated base64 payloads
of the visualization URL decode back to exactly the compiled text, the
debug map and the source text, in that order. -/
theorem sourceMapUrl_ascii_roundtrip (lua sourceMap source : List Nat)
    (h1 : ∀ c ∈ lua, c ≤ 127) (h2 : ∀ c ∈ sourceMap, c ≤ 127)
    (h3 : ∀ c ∈ source, c ≤ 127) :
    ∃ url, sourceMapUrl lua sourceMap source = some url ∧
      (splitOnComma (url.drop visualizationUrlHead.length)).map b64Decode =
        [lua, sourceMap, source] := by
  have e1 : btoa (replaceNonAscii lua) = some (b64Encode lua) := by
    rw [replaceNonAscii_of_ascii lua h1]
    exact btoa_of_bytes lua (fun c hc => by have := h1 c hc; omega)
  have e2 : btoa (replaceNonAscii sourceMap) = some (b64Encode sourceMap) := by
    rw [replaceNonAscii_of_ascii sourceMap h2]
    exact btoa_of_bytes sourceMap (fun c hc => by have := h2 c hc; omega)
  have e3 : btoa (replaceNonAscii source) = some (b64Encode source) := by
    rw [replaceNonAscii_of_ascii source h3]
    exact btoa_of_bytes source (fun c hc => by have := h3 c hc; omega)
  refine ⟨visualizationUrlHead ++
      joinWithComma [b64Encode lua, b64Encode sourceMap, b64Encode source], ?_, ?_⟩
  · unfold sourceMapUrl
    rw [e1, e2, e3]
  · rw [List.drop_left]
    have hjoin : joinWithComma [b64Encode lua, b64Encode sourceMap, b64Encode source] =
        b64Encode lua ++ commaCode ::
          (b64Encode sourceMap ++ commaCode :: b64Encode source) := rfl
    rw [hjoin, splitOnComma_append _ _ (b64Encode_ne_comma lua),
      splitOnComma_append _ _ (b64Encode_ne_comma sourceMap),
      splitOnComma_no_comma _ (b64Encode_ne_comma source)]
    simp only [List.map_cons, List.map_nil, List.cons.injEq, and_true]
    exact ⟨b64Decode_b64Encode lua (fun c hc => by have := h1 c hc; omega),
      b64Decode_b64Encode sourceMap (fun c hc => by have := h2 c hc; omega),
      b64Decode_b64Encode source (fun c hc => by have := h3 c hc; omega)⟩

/-- Witness for claim C5: the ASCII triple "print", "map", "src" encodes to
a URL whose payloads decode back to the originals. -/
theorem sourceMapUrl_ascii_roundtrip_witness :
    (∀ c ∈ strCodes "print", c ≤ 127) ∧ (∀ c ∈ strCodes "map", c ≤ 127) ∧
    (∀ c ∈ strCodes "src", c ≤ 127) ∧
    ∃ url, sourceMapUrl (strCodes "print") (strCodes "map") (strCodes "src") = some url ∧
      (splitOnComma (url.drop visualizationUrlHead.length)).map b64Decode =
        [strCodes "print", strCodes "map", strCodes "src"] :=
  ⟨by decide, by decide, by decide,
    sourceMapUrl_ascii_roundtrip (strCodes "print") (strCodes "map") (strCodes "src")
      (by decide) (by decide) (by decide)⟩

/-- Claim C6: the visualization URL construction is total: every code unit
outside the ASCII range is substituted away beforehand, the substituted
strings contain only byte-range units, and each `btoa` call and the whole
URL construction therefore succeed on every input. -/
theorem sourceMapUrl_never_fails (lua sourceMap source : List Nat) :
    (∀ s : List Nat, ∀ c ∈ replaceNonAscii s, c ≤ 127) ∧
    (∀ s : List Nat, (btoa (replaceNonAscii s)).isSome = true) ∧
    ∃ url, sourceMapUrl lua sourceMap source = some url := by
  refine ⟨replaceNonAscii_ascii, fun s => by rw [btoa_replaceNonAscii]; rfl, ?_⟩
  unfold sourceMapUrl
  rw [btoa_replaceNonAscii lua, btoa_replaceNonAscii sourceMap,
    btoa_replaceNonAscii source]
  exact ⟨_, rfl⟩

/-- Witness for claim C4: three keystrokes at 0, 100 and 200 ms with the
250 ms quiet period coalesce into the single trigger at 450 ms. -/
theorem debounce_burst_single_trigger_witness :
    ([0, 100, 200] : List Nat) ≠ [] ∧
    List.Chain' (fun a b => a ≤ b ∧ b < a + inputPaneDebounceMs) [0, 100, 200] ∧
    debounceTriggers inputPaneDebounceMs [0, 100, 200] = [450] :=
  ⟨by decide, by norm_num [List.chain'_cons, inputPaneDebounceMs],
    debounce_burst_single_trigger [0, 100, 200] (by decide)
      (by norm_num [List.chain'_cons, inputPaneDebounceMs])⟩

end Playground
